import Mathlib

/-!
# Verification of the Planting-Optimisation-Tool suitability-scoring core

This development embeds the suitability-scoring and recommendation engine of
the repository (package `suitability_scoring`) and the sapling-estimation
orchestration (`src/gis/sapling_estimation`) as Lean definitions and proves
the specified properties about them.

Numeric values are modelled as rationals (`ℚ`); Python `None` is modelled as
`Option.none`; exceptions are modelled with `Except`.

The scoring/recommendation modules themselves (`scoring.py`, `utils/params.py`,
`recommend.py`) are not part of the repository snapshot — only the package's
`__init__.py` with its detailed API documentation is.  Definitions for that
part are therefore modelled from the spec and from the package docstring, and
are marked `Modelled from the spec:` in their doc comments.  The
sapling-estimation files are present in full and are embedded directly.
-/

namespace PlantingOpt

/-! ## Per-feature scoring functions -/

/-- Modelled from the spec: the core of `num_range(farm_value, min, max)` when
all three inputs are present — "1.0 if `min ≤ farm_value ≤ max`; 0.0
otherwise" (the `numerical_range_score` helper of the package, whose source
module is not included in the repository snapshot). -/
def numerical_range_score (v lo hi : ℚ) : ℚ :=
  if lo ≤ v ∧ v ≤ hi then 1 else 0

/-- Modelled from the spec: `num_range(farm_value, min, max)` — "1.0 if
`min ≤ farm_value ≤ max`; 0.0 otherwise; `None` if farm_value or either bound
is missing" (spec §4.3; source module of the scoring engine is not included
in the repository snapshot). -/
def num_range (v lo hi : Option ℚ) : Option ℚ :=
  match v, lo, hi with
  | some v, some lo, some hi => some (numerical_range_score v lo hi)
  | _, _, _ => none

/-- Modelled from the spec: `trapezoid(farm_value, min, max, left_tol,
right_tol)` with all inputs present — "1.0 inside `[min, max]`; linearly ramps
from 0 to 1 across `[min-left_tol, min)` and from 1 to 0 across
`(max, max+right_tol]`; 0.0 beyond the tolerance bands", the ramp "linear in
distance from the nearest in-range boundary normalized by the corresponding
tolerance width" (spec §4.3; source module of the scoring engine is not
included in the repository snapshot). -/
def numerical_trapezoid_score (v lo hi left_tol right_tol : ℚ) : ℚ :=
  if lo ≤ v ∧ v ≤ hi then 1
  else if lo - left_tol ≤ v ∧ v < lo then (v - (lo - left_tol)) / left_tol
  else if hi < v ∧ v ≤ hi + right_tol then (hi + right_tol - v) / right_tol
  else 0

/-- Modelled from the spec: `cat_exact(farm_value, preferred)` with both
inputs present — "1.0 if `farm_value ∈ preferred`; 0.0 otherwise" (spec §4.3;
source module of the scoring engine is not included in the repository
snapshot). -/
def categorical_exact_score (v : String) (preferred : List String) : ℚ :=
  if v ∈ preferred then 1 else 0

/-- A compatibility table (spec §3): it maps "a preference value to a set of
acceptable-but-imperfect alternatives with a per-pair compatibility weight". -/
abbrev CompatTable : Type := List (String × List (String × ℚ))

/-- Modelled from the spec: the compatibility weight the table holds for the
pair (preferred value, farm value), if any. -/
def compat_weight (table : CompatTable) (pref v : String) : Option ℚ :=
  (List.find? (fun e => e.1 == pref) table).bind
    (fun e => (List.find? (fun a => a.1 == v) e.2).map (fun a => a.2))

/-- Modelled from the spec: `cat_compatibility(farm_value, preferred,
compatibility_table)` with all inputs present — "1.0 on exact membership;
else the compatibility weight in [0,1] looked up from the table for
`(farm_value, each preferred value)` taking the best (maximum) match found;
0.0 if no entry matches" (spec §4.3; source module of the scoring engine is
not included in the repository snapshot). -/
def categorical_compatibility_score (v : String) (preferred : List String)
    (table : CompatTable) : ℚ :=
  if v ∈ preferred then 1
  else (preferred.map (fun p => (compat_weight table p v).getD 0)).foldr max 0

/-! ## Configuration, catalog rows, parameter index and rules

Modelled from the spec (§3, §4.1, §4.2, §6) and the data shapes documented in
`src/datascience/src/suitability_scoring/__init__.py`; the `utils/params.py`
module implementing `build_rules_dict` is not included in the repository
snapshot. -/

/-- A feature's type: `"numerical"` or `"categorical"` (spec §3). -/
inductive FType
  | numerical
  | categorical
deriving DecidableEq

/-- Modelled from the spec: per-feature configuration metadata
(`cfg["features"][feat]`): a `type` (absent when the configuration is
malformed), a display `short` name, and an optional compatibility table. -/
structure FeatureCfg where
  ftype : Option FType
  short : String
  compatibility_pairs : CompatTable
deriving DecidableEq

/-- The feature-configuration mapping `cfg["features"]`, as an association
list from feature key to metadata. -/
abbrev Cfg : Type := List (String × FeatureCfg)

/-- Modelled from the spec: one entry of the parameter index
`params[species][feature]` — "`{score_method, weight, trap_left_tol,
trap_right_tol}`", every field optional (spec §4.1). -/
structure FeatParams where
  score_method : Option String
  weight : Option ℚ
  trap_left_tol : Option ℚ
  trap_right_tol : Option ℚ
deriving DecidableEq

/-- The parameter index `params[species][feature]`, as nested association
lists keyed by species id, then feature key. -/
abbrev ParamsDict : Type := List (Nat × List (String × FeatParams))

/-- A species catalog row (spec §3, §6): identifiers plus raw per-feature
attributes — `<feat>_min` / `<feat>_max` numeric fields and `<feat>s`
preference-list fields; either may be missing for any feature. -/
structure SpeciesRow where
  species_id : Nat
  species_name : String
  species_common_name : String
  num_attrs : List (String × ℚ)
  cat_attrs : List (String × List String)
deriving DecidableEq

/-- An observed farm value: numeric or categorical (spec §3). -/
inductive FarmValue
  | num (x : ℚ)
  | cat (s : String)
deriving DecidableEq

/-- A farm profile: a sparse mapping from feature key to observed value. -/
abbrev Farm : Type := List (String × FarmValue)

/-- The method-specific argument tuple stored in a rule (package docstring:
`num_range -> (min, max)`, `trapezoid -> (min, max, left_tol, right_tol)`,
`cat_exact -> prefs`, `cat_compatibility -> (prefs, compatibility_pairs)`). -/
inductive RuleArgs
  | numRangeArgs (lo hi : ℚ)
  | trapezoidArgs (lo hi left_tol right_tol : ℚ)
  | catExactArgs (preferred : List String)
  | catCompatArgs (preferred : List String) (table : CompatTable)
deriving DecidableEq

/-- A fully resolved scoring rule (spec §3; package docstring): feature key,
weight, display short name, score method and method-specific arguments. -/
structure Rule where
  feat : String
  weight : ℚ
  short_name : String
  score_method : String
  args : RuleArgs
deriving DecidableEq

/-- Lookup of the parameter-index entry for one (species, feature) pair. -/
def lookup_feat_params (params : ParamsDict) (sid : Nat) (feat : String) :
    Option FeatParams :=
  (List.find? (fun e => e.1 == sid) params).bind
    (fun e => (List.find? (fun f => f.1 == feat) e.2).map (fun f => f.2))

/-- Numeric catalog field of a species row (`<feat>_min`, `<feat>_max`). -/
def row_num (row : SpeciesRow) (k : String) : Option ℚ :=
  (List.find? (fun e => e.1 == k) row.num_attrs).map (fun e => e.2)

/-- Categorical catalog field of a species row (the plural `<feat>s`). -/
def row_cat (row : SpeciesRow) (k : String) : Option (List String) :=
  (List.find? (fun e => e.1 == k) row.cat_attrs).map (fun e => e.2)

/-- Modelled from the spec: the feature-type default score method —
"`num_range` for numerical, `cat_exact` for categorical" (spec §4.2). -/
def default_method : Option FType → String
  | some FType.numerical => "num_range"
  | _ => "cat_exact"

/-- Modelled from the spec: resolved score method — "override value if
present, else a type default" (spec §4.2). -/
def resolve_method (params : ParamsDict) (sid : Nat) (feat : String)
    (fcfg : FeatureCfg) : String :=
  (((lookup_feat_params params sid feat).bind (fun p => p.score_method))).getD
    (default_method fcfg.ftype)

/-- Modelled from the spec: resolved weight — "override value if present,
else 1.0" (spec §4.2). -/
def resolve_weight (params : ParamsDict) (sid : Nat) (feat : String) : ℚ :=
  (((lookup_feat_params params sid feat).bind (fun p => p.weight))).getD 1

/-- Modelled from the spec: resolved trapezoid left tolerance (default 0). -/
def resolve_left_tol (params : ParamsDict) (sid : Nat) (feat : String) : ℚ :=
  (((lookup_feat_params params sid feat).bind (fun p => p.trap_left_tol))).getD 0

/-- Modelled from the spec: resolved trapezoid right tolerance (default 0). -/
def resolve_right_tol (params : ParamsDict) (sid : Nat) (feat : String) : ℚ :=
  (((lookup_feat_params params sid feat).bind (fun p => p.trap_right_tol))).getD 0

/-- The four score methods the engine supports (package docstring). -/
def known_methods : List String :=
  ["num_range", "trapezoid", "cat_exact", "cat_compatibility"]

/-- The typed error raised for structurally invalid configuration
(spec §7: "missing required feature-type metadata, unknown score method
referenced"). -/
inductive ConfigError
  | missing_type (feat : String)
  | unknown_method (m : String)

/-- First feature of the configuration missing its `type` metadata, if any. -/
def first_missing_type (cfg : Cfg) : Option String :=
  (List.find? (fun fc => fc.2.ftype.isNone) cfg).map (fun fc => fc.1)

/-- First unknown score method referenced by a parameter override, if any. -/
def first_unknown_method (params : ParamsDict) : Option String :=
  params.findSome? (fun e =>
    e.2.findSome? (fun f =>
      match f.2.score_method with
      | some m => if m ∈ known_methods then none else some m
      | none => none))

/-- Modelled from the spec: structural validation of the configuration and
overrides, performed at rule-build time — "invalid configuration structure
(missing required feature-type metadata, unknown score method referenced)
... should fail fast and loudly at rule-build time" (spec §7). -/
def validate_config (cfg : Cfg) (params : ParamsDict) : Except ConfigError Unit :=
  match first_missing_type cfg with
  | some f => Except.error (ConfigError.missing_type f)
  | none =>
    match first_unknown_method params with
    | some m => Except.error (ConfigError.unknown_method m)
    | none => Except.ok ()

/-- Modelled from the spec: the method-specific argument tuple for one
(species, feature) pair, or `none` when the catalog row misses the needed
fields — "A species row missing the needed fields for a feature is skipped
for that feature only (no rule emitted)" (spec §4.2). -/
def rule_args_for (params : ParamsDict) (sid : Nat) (row : SpeciesRow)
    (fc : String × FeatureCfg) : Option RuleArgs :=
  let m := resolve_method params sid fc.1 fc.2
  if m = "cat_exact" then
    (row_cat row (fc.1 ++ "s")).map RuleArgs.catExactArgs
  else if m = "cat_compatibility" then
    (row_cat row (fc.1 ++ "s")).map
      (fun prefs => RuleArgs.catCompatArgs prefs fc.2.compatibility_pairs)
  else if m = "trapezoid" then
    match row_num row (fc.1 ++ "_min"), row_num row (fc.1 ++ "_max") with
    | some lo, some hi =>
      some (RuleArgs.trapezoidArgs lo hi
        (resolve_left_tol params sid fc.1) (resolve_right_tol params sid fc.1))
    | _, _ => none
  else
    match row_num row (fc.1 ++ "_min"), row_num row (fc.1 ++ "_max") with
    | some lo, some hi => some (RuleArgs.numRangeArgs lo hi)
    | _, _ => none

/-- Modelled from the spec: the rule built for one (species, feature) pair,
when the catalog row provides the needed fields (spec §4.2). -/
def rule_for (params : ParamsDict) (sid : Nat) (row : SpeciesRow)
    (fc : String × FeatureCfg) : Option Rule :=
  (rule_args_for params sid row fc).map
    (fun a =>
      { feat := fc.1
        weight := resolve_weight params sid fc.1
        short_name := fc.2.short
        score_method := resolve_method params sid fc.1 fc.2
        args := a })

/-- Modelled from the spec: the rule sequence of one species — one rule per
configured feature the catalog row provides values for (spec §4.2). -/
def species_rules (params : ParamsDict) (row : SpeciesRow) (cfg : Cfg) :
    List Rule :=
  cfg.filterMap (rule_for params row.species_id row)

/-- Modelled from the spec: `build_rules_dict(species_list, params, cfg)` —
validates configuration structure, then constructs per-species rule lists
(spec §4.2, §7; source module `utils/params.py` is not included in the
repository snapshot). -/
def build_rules_dict (species_list : List SpeciesRow) (params : ParamsDict)
    (cfg : Cfg) : Except ConfigError (List (Nat × List Rule)) :=
  match validate_config cfg params with
  | Except.error e => Except.error e
  | Except.ok _ =>
    Except.ok (species_list.map
      (fun row => (row.species_id, species_rules params row cfg)))

/-- The Boolean test "this catalog row provides the fields needed by this
configured feature" — numeric methods need `<feat>_min` and `<feat>_max`,
categorical methods need `<feat>s`. -/
def row_provides (params : ParamsDict) (row : SpeciesRow)
    (fc : String × FeatureCfg) : Bool :=
  let m := resolve_method params row.species_id fc.1 fc.2
  if m = "cat_exact" ∨ m = "cat_compatibility" then
    (row_cat row (fc.1 ++ "s")).isSome
  else
    (row_num row (fc.1 ++ "_min")).isSome && (row_num row (fc.1 ++ "_max")).isSome

/-! ## Scoring engine

Modelled from the spec (§4.3) and the package docstring; the `scoring.py`
module is not included in the repository snapshot. -/

/-- The raw farm value recorded for a feature key, if present. -/
def farm_value (farm : Farm) (k : String) : Option FarmValue :=
  (List.find? (fun e => e.1 == k) farm).map (fun e => e.2)

/-- The farm's numeric value for a feature key, if present and numeric. -/
def farm_num (farm : Farm) (k : String) : Option ℚ :=
  (farm_value farm k).bind
    (fun v => match v with | FarmValue.num x => some x | FarmValue.cat _ => none)

/-- The farm's categorical value for a feature key, if present and
categorical. -/
def farm_cat (farm : Farm) (k : String) : Option String :=
  (farm_value farm k).bind
    (fun v => match v with | FarmValue.num _ => none | FarmValue.cat s => some s)

/-- Modelled from the spec: evaluation of one rule against the farm profile —
the per-feature score, or `none` on missing farm or species data (spec §4.3;
`cat_exact` additionally yields `none` on an empty preference list, per
"`None` if farm_value or preferred is missing/empty"). -/
def score_rule (farm : Farm) (r : Rule) : Option ℚ :=
  match r.args with
  | RuleArgs.numRangeArgs lo hi =>
    (farm_num farm r.feat).map (fun v => numerical_range_score v lo hi)
  | RuleArgs.trapezoidArgs lo hi lt' rt' =>
    (farm_num farm r.feat).map (fun v => numerical_trapezoid_score v lo hi lt' rt')
  | RuleArgs.catExactArgs prefs =>
    if prefs.isEmpty then none
    else (farm_cat farm r.feat).map (fun v => categorical_exact_score v prefs)
  | RuleArgs.catCompatArgs prefs table =>
    (farm_cat farm r.feat).map (fun v => categorical_compatibility_score v prefs table)

/-- Modelled from the spec: the short human-readable reason attached to a
feature evaluation (spec §4.3: e.g. "exact match", "inside preferred range",
"outside tolerance"). -/
def score_reason (r : Rule) (s : Option ℚ) : String :=
  match s with
  | none => "missing data"
  | some s =>
    if s = 1 then
      match r.args with
      | RuleArgs.catExactArgs _ => "exact match"
      | RuleArgs.catCompatArgs _ _ => "exact match"
      | _ => "inside preferred range"
    else if s = 0 then "outside tolerance"
    else "partial match"

/-- A per-feature score outcome (spec §3): score (or absent), reason and the
raw farm value, recorded per feature per species. -/
structure FeatureOutcome where
  short_name : String
  farm_value : Option FarmValue
  score : Option ℚ
  reason : String
deriving DecidableEq

/-- Modelled from the spec: the running (weighted total, weight sum)
accumulation over a species' rules, skipping undefined scores (spec §4.3:
"only present-feature weights participate"). -/
def mcda_step (farm : Farm) (acc : ℚ × ℚ) (r : Rule) : ℚ × ℚ :=
  match score_rule farm r with
  | none => acc
  | some s => (acc.1 + r.weight * s, acc.2 + r.weight)

/-- The (weighted total, weight sum) accumulation over a species' rules. -/
def mcda_fold (farm : Farm) (rules : List Rule) : ℚ × ℚ :=
  rules.foldl (mcda_step farm) (0, 0)

/-- Modelled from the spec: the aggregate suitability score — the weighted
arithmetic mean of the defined feature scores, with the documented sentinel
0.0 for a species with no scorable feature (spec §4.3, §9). -/
def mcda_score_of (farm : Farm) (rules : List Rule) : ℚ :=
  let t := mcda_fold farm rules
  if t.2 = 0 then 0 else t.1 / t.2

/-- One suitability result per species (spec §3, §6). -/
structure SuitabilityResult where
  species_id : Nat
  species_name : String
  species_common_name : String
  mcda_score : ℚ
  features : List (String × FeatureOutcome)
deriving DecidableEq

/-- Modelled from the spec: full evaluation of one species against the farm
profile: per-feature outcomes plus the aggregate score (spec §4.3). -/
def score_species (farm : Farm) (row : SpeciesRow) (rules : List Rule) :
    SuitabilityResult :=
  { species_id := row.species_id
    species_name := row.species_name
    species_common_name := row.species_common_name
    mcda_score := mcda_score_of farm rules
    features := rules.map (fun r =>
      (r.feat,
        { short_name := r.short_name
          farm_value := farm_value farm r.feat
          score := score_rule farm r
          reason := score_reason r (score_rule farm r) })) }

/-- The rule list the rules dictionary holds for a species id (empty when the
species has no entry). -/
def rules_for (rd : List (Nat × List Rule)) (sid : Nat) : List Rule :=
  ((List.find? (fun e => e.1 == sid) rd).map (fun e => e.2)).getD []

/-- Modelled from the spec: `calculate_suitability(farm, species_list,
optimised_rules, cfg)` — evaluates every rule of every listed species against
the single farm profile and returns the detailed results list plus the
compact `(species_id, score)` list (spec §4.3; package docstring). -/
def calculate_suitability (farm : Farm) (species_list : List SpeciesRow)
    (optimised_rules : List (Nat × List Rule)) (_cfg : Cfg) :
    List SuitabilityResult × List (Nat × ℚ) :=
  let results := species_list.map
    (fun row => score_species farm row (rules_for optimised_rules row.species_id))
  (results, results.map (fun r => (r.species_id, r.mcda_score)))

/-- The per-rule (weight, score) pairs with a defined score — the data over
which the weighted mean is taken. -/
def scored_pairs (farm : Farm) (rules : List Rule) : List (ℚ × ℚ) :=
  rules.filterMap (fun r => (score_rule farm r).map (fun s => (r.weight, s)))

/-! ## Recommendation ranker

Modelled from the spec (§4.4) and the package docstring; the `recommend.py`
module is not included in the repository snapshot. -/

/-- Scores are rounded for display and rank tie-breaking to a fixed precision
of three decimals (package docstring example: `score_mcda: 0.842`). -/
def round3 (q : ℚ) : ℚ := (round (q * 1000) : ℤ) / 1000

/-- Modelled from the spec: the dense-rank walk over an already sorted
(descending) score list — a score equal to the previous one repeats the
previous rank, the next distinct score takes the immediately following
integer rank (spec §4.4). -/
def rank_walk : ℚ → Nat → List ℚ → List (ℚ × Nat)
  | _, _, [] => []
  | prev, r, x :: xs =>
    if x = prev then (x, r) :: rank_walk prev r xs
    else (x, r + 1) :: rank_walk x (r + 1) xs

/-- Modelled from the spec: the `assign_dense_ranks` helper — 1-based dense
ranks over a sorted (descending) score list (spec §4.4; package docstring). -/
def assign_dense_ranks : List ℚ → List (ℚ × Nat)
  | [] => []
  | x :: xs => (x, 1) :: rank_walk x 1 xs

/-- One ranked recommendation per species (package docstring). -/
structure Recommendation where
  species_id : Nat
  species_name : String
  species_common_name : String
  score_mcda : ℚ
  rank_overall : Nat
  key_reasons : List String
deriving DecidableEq

/-- Modelled from the spec: compact "key reasons" — up to a small fixed
number of `ShortName:reason` strings for decisive (clear match or clear
mismatch) feature outcomes (spec §4.4). -/
def key_reasons_of (res : SuitabilityResult) : List String :=
  ((res.features.filter
      (fun f => decide (f.2.score = some 1 ∨ f.2.score = some 0))).take 3).map
    (fun f => f.2.short_name ++ ":" ++ f.2.reason)

/-- Descending comparison on suitability results by `mcda_score`. -/
def res_ge (a b : SuitabilityResult) : Prop := b.mcda_score ≤ a.mcda_score

instance : DecidableRel res_ge :=
  fun a b => inferInstanceAs (Decidable (b.mcda_score ≤ a.mcda_score))

instance : IsTotal SuitabilityResult res_ge :=
  ⟨fun a b => le_total b.mcda_score a.mcda_score⟩

instance : IsTrans SuitabilityResult res_ge :=
  ⟨fun _ _ _ h1 h2 => le_trans h2 h1⟩

/-- The results sorted descending by `mcda_score`. -/
def sort_desc (results : List SuitabilityResult) : List SuitabilityResult :=
  results.insertionSort res_ge

/-- Pair each sorted result with its (rounded score, dense rank) and render
the recommendation record. -/
def rank_and_render (sorted : List SuitabilityResult) : List Recommendation :=
  (sorted.zip (assign_dense_ranks (sorted.map (fun r => round3 r.mcda_score)))).map
    (fun p =>
      { species_id := p.1.species_id
        species_name := p.1.species_name
        species_common_name := p.1.species_common_name
        score_mcda := p.2.1
        rank_overall := p.2.2
        key_reasons := key_reasons_of p.1 })

/-- Modelled from the spec: `build_species_recommendations(results)` — sort
descending by `mcda_score`, assign 1-based dense ranks keyed on the rounded
score, and attach identifiers, the rounded score and the key reasons
(spec §4.4; package docstring). -/
def build_species_recommendations (results : List SuitabilityResult) :
    List Recommendation :=
  rank_and_render (sort_desc results)

/-- The relation the dense-rank walk guarantees between an earlier and a
later entry of its (score, rank) output: scores do not increase, equal scores
carry equal ranks, and a strictly smaller score carries a strictly larger
rank. -/
abbrev RankRel (p q : ℚ × Nat) : Prop :=
  q.1 ≤ p.1 ∧ (p.1 = q.1 ↔ p.2 = q.2) ∧ (q.1 < p.1 ↔ p.2 < q.2)

/-- Modelled from the spec: the fixed pipeline — build rules (failing fast on
structurally invalid configuration), then score, then rank (spec §2, §7). -/
def run_pipeline (farm : Farm) (species_list : List SpeciesRow)
    (params : ParamsDict) (cfg : Cfg) : Except ConfigError (List Recommendation) :=
  match build_rules_dict species_list params cfg with
  | Except.error e => Except.error e
  | Except.ok rules =>
    Except.ok (build_species_recommendations
      (calculate_suitability farm species_list rules cfg).1)

/-! ## Sapling estimation (`src/gis/sapling_estimation`)

These two files are present in the repository; the geospatial libraries they
call (`geopandas`, `rasterio`) and the sibling modules (`slope_raster`,
`planting_points`, `rotation`) are external collaborators, modelled as an
abstract environment. -/

/-- `MAX_SLOPE = 15.0` — the hard-coded slope threshold of
`slope_rules.py`. -/
def MAX_SLOPE : ℚ := 15.0

/-- Boolean-mask row selection, the embedding of
`planting_points[[s <= MAX_SLOPE for s in slope_values]]`: keeps exactly the
rows whose mask entry is `true`, in order. -/
def mask_select {α : Type} : List α → List Bool → List α
  | [], _ => []
  | _, [] => []
  | x :: xs, b :: bs => if b then x :: mask_select xs bs else mask_select xs bs

/-- What `apply_slope_rules` reads: the rotated planting grid (its point list
and CRS), the slope raster's CRS, the per-point slope sampling of the raster,
and the reprojection `to_crs` applies to a point when the two CRS differ. -/
structure SlopeInput (α : Type) where
  points : List α
  points_crs : Option String
  slope_crs : Option String
  reproject : α → α
  sample : α → ℚ

/-- The embedding of `apply_slope_rules(rotated_grid_path, slope_raster_path,
output_path)` (`slope_rules.py`): raise on a missing CRS on either side,
reproject the points when the CRS differ, sample the slope at every point,
keep only points at or below `MAX_SLOPE`, and write them out.  The function
body ends without a `return` statement, so its Python return value is `None`:
the result carries that return value (`Option ℕ`, always `none`) together
with the point list written to the output file. -/
def apply_slope_rules {α : Type} (inp : SlopeInput α) :
    Except String (Option ℕ × List α) :=
  match inp.points_crs with
  | none =>
    Except.error
      "ERROR: Rotated planting grid has no CRS, please check rotated grid file."
  | some pcrs =>
    match inp.slope_crs with
    | none =>
      Except.error
        "ERROR: Slope raster has no CRS, please check slope raster file."
    | some scrs =>
      let pts := if pcrs = scrs then inp.points else inp.points.map inp.reproject
      let slope_values := pts.map inp.sample
      Except.ok
        (none, mask_select pts (slope_values.map (fun s => decide (s ≤ MAX_SLOPE))))

/-- The external collaborators `sapling_estimation.py` calls (the sibling
modules `slope_raster`, `planting_points` and `rotation`), indexed by the
file-name arguments the orchestrator passes them and acting on an abstract
file-system state `σ`: `compute_farm_slope` and `generate_planting_points`
write files, `rotate_grid` writes the rotated grid and returns the optimal
angle, the validators `slope_tester` / `rotation_tester` read files, and
`slope_data` is the grid/raster data `apply_slope_rules` finds at the given
paths. -/
structure GisEnv (σ α : Type) where
  compute_farm_slope : String → String → ℚ → ℚ → String → σ → σ
  slope_tester : String → σ → Bool
  generate_planting_points : String → String → ℚ → String → σ → σ
  rotate_grid : String → String → ℚ → String → σ → ℚ × σ
  rotation_tester : String → String → σ → Bool
  slope_data : String → String → σ → SlopeInput α

/-- The planting plan `sapling_estimation` returns:
`{"sapling_count": ..., "optimal_angle": ...}`. -/
structure SaplingPlan where
  sapling_count : Option ℕ
  optimal_angle : ℚ

/-- The embedding of `sapling_estimation(DEM_path, farm_boundary_path,
farm_lon, farm_lat, spacing_m)` (`sapling_estimation.py`).  The body passes
the hard-coded literals `"DEM.tif"` and `"farm_boundaries.gpkg"` to
`compute_farm_slope` and `generate_planting_points` instead of its `DEM_path`
and `farm_boundary_path` arguments, validates the slope raster and the
rotated grid (raising `ValueError` on failure), applies the slope rules to
the rotated grid, and returns the plan dictionary. -/
def sapling_estimation {σ α : Type} (env : GisEnv σ α) (fs0 : σ)
    (DEM_path farm_boundary_path : String) (farm_lon farm_lat spacing_m : ℚ) :
    Except String SaplingPlan :=
  let fs1 := env.compute_farm_slope "DEM.tif" "farm_boundaries.gpkg"
    farm_lon farm_lat "farm_slope.tif" fs0
  if env.slope_tester "farm_slope.tif" fs1 = false then
    Except.error "ERROR: Slope raster failed validation checks."
  else
    let fs2 := env.generate_planting_points "farm_slope.tif"
      "farm_boundaries.gpkg" spacing_m "farm_grid.shp" fs1
    let rot := env.rotate_grid "farm_grid.shp" "farm_boundaries.gpkg" spacing_m
      "rotated_grid.shp" fs2
    if env.rotation_tester "rotated_grid.shp" "farm_grid.shp" rot.2 = false then
      Except.error "ERROR: Slope raster failed validation checks."
    else
      match apply_slope_rules (env.slope_data "rotated_grid.shp" "farm_slope.tif" rot.2) with
      | Except.error e => Except.error e
      | Except.ok r =>
        Except.ok { sapling_count := r.1, optimal_angle := rot.1 }

/-! ## Theorems -/

/-! ### Basic shape lemmas for the trapezoid score -/

lemma trapezoid_eq_one {v lo hi lt rt : ℚ} (h1 : lo ≤ v) (h2 : v ≤ hi) :
    numerical_trapezoid_score v lo hi lt rt = 1 := by
  simp [numerical_trapezoid_score, h1, h2]

lemma trapezoid_left_ramp {v lo hi lt rt : ℚ} (h1 : lo - lt ≤ v) (h2 : v < lo) :
    numerical_trapezoid_score v lo hi lt rt = (v - (lo - lt)) / lt := by
  rw [numerical_trapezoid_score, if_neg, if_pos ⟨h1, h2⟩]
  rintro ⟨h, -⟩
  exact absurd h (not_le.mpr h2)

lemma trapezoid_right_ramp {v lo hi lt rt : ℚ} (hlohi : lo ≤ hi)
    (h1 : hi < v) (h2 : v ≤ hi + rt) :
    numerical_trapezoid_score v lo hi lt rt = (hi + rt - v) / rt := by
  rw [numerical_trapezoid_score, if_neg, if_neg, if_pos ⟨h1, h2⟩]
  · rintro ⟨-, h⟩
    exact absurd h (not_lt.mpr (hlohi.trans h1.le))
  · rintro ⟨-, h⟩
    exact absurd h (not_le.mpr h1)

lemma trapezoid_zero_left {v lo hi lt rt : ℚ} (hlohi : lo ≤ hi) (hlt : 0 ≤ lt)
    (h : v < lo - lt) :
    numerical_trapezoid_score v lo hi lt rt = 0 := by
  have hvlo : v < lo := lt_of_lt_of_le h (by linarith)
  rw [numerical_trapezoid_score, if_neg, if_neg, if_neg]
  · rintro ⟨h3, -⟩
    exact absurd h3 (not_lt.mpr (hvlo.le.trans hlohi))
  · rintro ⟨h3, -⟩
    exact absurd h3 (not_le.mpr h)
  · rintro ⟨h3, -⟩
    exact absurd h3 (not_le.mpr hvlo)

lemma trapezoid_zero_right {v lo hi lt rt : ℚ} (hlohi : lo ≤ hi) (hrt : 0 ≤ rt)
    (h : hi + rt < v) :
    numerical_trapezoid_score v lo hi lt rt = 0 := by
  have hhiv : hi < v := lt_of_le_of_lt (by linarith) h
  rw [numerical_trapezoid_score, if_neg, if_neg, if_neg]
  · rintro ⟨-, h3⟩
    exact absurd h3 (not_le.mpr h)
  · rintro ⟨-, h3⟩
    exact absurd h3 (not_lt.mpr (hlohi.trans hhiv.le))
  · rintro ⟨-, h3⟩
    exact absurd h3 (not_le.mpr hhiv)

/-! ### Claim C3: trapezoid shape -/

/-- C3 (counterexample): the claim asserts the trapezoid score is "exactly 0.0
at and beyond `lo - left_tol`", but with a zero left tolerance the point
`lo - left_tol = lo` lies on the full-score plateau, where the score is 1, not
0 (here `v = 0 - 0`, `lo = 0`, `hi = 1`, `left_tol = 0`, `right_tol = 1`). -/
theorem trapezoid_zero_at_boundary_cex :
    ¬ (numerical_trapezoid_score (0 - 0) 0 1 0 1 = 0) := by
  norm_num [numerical_trapezoid_score]

/-- C3 (amended): for `lo ≤ hi` and non-negative tolerances, the trapezoid
score is monotonically non-decreasing on `[lo - left_tol, lo]`, constantly 1
on `[lo, hi]`, monotonically non-increasing on `[hi, hi + right_tol]`,
exactly 0 strictly beyond `lo - left_tol` and `hi + right_tol` and also at
those two points whenever the corresponding tolerance is positive, and with a
zero tolerance it agrees with the `num_range` step function on that side. -/
theorem trapezoid_shape (lo hi lt rt : ℚ) (hlohi : lo ≤ hi)
    (hlt : 0 ≤ lt) (hrt : 0 ≤ rt) :
    (∀ v₁ v₂, lo - lt ≤ v₁ → v₁ ≤ v₂ → v₂ ≤ lo →
      numerical_trapezoid_score v₁ lo hi lt rt ≤ numerical_trapezoid_score v₂ lo hi lt rt)
    ∧ (∀ v, lo ≤ v → v ≤ hi → numerical_trapezoid_score v lo hi lt rt = 1)
    ∧ (∀ v₁ v₂, hi ≤ v₁ → v₁ ≤ v₂ → v₂ ≤ hi + rt →
      numerical_trapezoid_score v₂ lo hi lt rt ≤ numerical_trapezoid_score v₁ lo hi lt rt)
    ∧ (∀ v, v < lo - lt → numerical_trapezoid_score v lo hi lt rt = 0)
    ∧ (0 < lt → numerical_trapezoid_score (lo - lt) lo hi lt rt = 0)
    ∧ (∀ v, hi + rt < v → numerical_trapezoid_score v lo hi lt rt = 0)
    ∧ (0 < rt → numerical_trapezoid_score (hi + rt) lo hi lt rt = 0)
    ∧ (lt = 0 → ∀ v, v ≤ hi →
      numerical_trapezoid_score v lo hi lt rt = numerical_range_score v lo hi)
    ∧ (rt = 0 → ∀ v, lo ≤ v →
      numerical_trapezoid_score v lo hi lt rt = numerical_range_score v lo hi) := by
  refine ⟨?_, ?_, ?_, ?_, ?_, ?_, ?_, ?_, ?_⟩
  · intro v₁ v₂ h1 h12 h2
    rcases lt_or_le v₁ lo with hv1 | hv1
    · have hltpos : 0 < lt := by linarith
      rcases lt_or_le v₂ lo with hv2 | hv2
      · rw [trapezoid_left_ramp h1 hv1, trapezoid_left_ramp (h1.trans h12) hv2]
        gcongr
      · have hv2' : v₂ = lo := le_antisymm h2 hv2
        rw [trapezoid_left_ramp h1 hv1, hv2', trapezoid_eq_one le_rfl hlohi]
        rw [div_le_one hltpos]
        linarith
    · have e1 : v₁ = lo := le_antisymm (h12.trans h2) hv1
      have e2 : v₂ = lo := le_antisymm h2 (hv1.trans h12)
      rw [e1, e2]
  · intro v h1 h2
    exact trapezoid_eq_one h1 h2
  · intro v₁ v₂ h1 h12 h2
    rcases lt_or_le hi v₂ with hv2 | hv2
    · have hrtpos : 0 < rt := by linarith
      rcases lt_or_le hi v₁ with hv1 | hv1
      · rw [trapezoid_right_ramp hlohi hv1 (h12.trans h2), trapezoid_right_ramp hlohi hv2 h2]
        gcongr
      · have e1 : v₁ = hi := le_antisymm hv1 h1
        rw [e1, trapezoid_eq_one hlohi le_rfl, trapezoid_right_ramp hlohi hv2 h2]
        rw [div_le_one hrtpos]
        linarith
    · have e1 : v₁ = hi := le_antisymm (h12.trans hv2) h1
      have e2 : v₂ = hi := le_antisymm hv2 (h1.trans h12)
      rw [e1, e2]
  · intro v h
    exact trapezoid_zero_left hlohi hlt h
  · intro hpos
    rw [trapezoid_left_ramp le_rfl (by linarith)]
    simp
  · intro v h
    exact trapezoid_zero_right hlohi hrt h
  · intro hpos
    rw [trapezoid_right_ramp hlohi (by linarith) le_rfl]
    simp
  · intro h0 v hv
    rcases lt_or_le v lo with hvlo | hvlo
    · rw [trapezoid_zero_left hlohi hlt (by rw [h0]; linarith)]
      simp [numerical_range_score, not_le.mpr hvlo]
    · rw [trapezoid_eq_one hvlo hv]
      simp [numerical_range_score, hvlo, hv]
  · intro h0 v hv
    rcases lt_or_le hi v with hvhi | hvhi
    · rw [trapezoid_zero_right hlohi hrt (by rw [h0]; linarith)]
      simp [numerical_range_score, not_le.mpr hvhi]
    · rw [trapezoid_eq_one hv hvhi]
      simp [numerical_range_score, hv, hvhi]

/-- C3 witness: the amended trapezoid-shape theorem evaluated at the concrete
trapezoid `lo = 0`, `hi = 1`, `left_tol = 2`, `right_tol = 2`, applied at the
mid-ramp point `v = -1`. -/
theorem trapezoid_shape_witness :
    numerical_trapezoid_score (-1) 0 1 2 2 ≤ numerical_trapezoid_score 0 0 1 2 2 :=
  (trapezoid_shape 0 1 2 2 (by norm_num) (by norm_num) (by norm_num)).1
    (-1) 0 (by norm_num) (by norm_num) (by norm_num)

/-! ### Claim C4: num_range step behaviour -/

/-- C4: `num_range(v, lo, hi)` returns exactly 1.0 when `lo ≤ v ≤ hi`,
exactly 0.0 when `v < lo` or `v > hi`, and `None` exactly when `v`, `lo`, or
`hi` is missing. -/
theorem num_range_spec :
    (∀ v lo hi : ℚ,
      (lo ≤ v ∧ v ≤ hi → num_range (some v) (some lo) (some hi) = some 1)
      ∧ (v < lo ∨ hi < v → num_range (some v) (some lo) (some hi) = some 0))
    ∧ (∀ v lo hi : Option ℚ,
      num_range v lo hi = none ↔ v = none ∨ lo = none ∨ hi = none) := by
  constructor
  · intro v lo hi
    constructor
    · intro h
      simp [num_range, numerical_range_score, h]
    · intro h
      have hne : ¬ (lo ≤ v ∧ v ≤ hi) := by
        rcases h with h | h
        · exact fun hc => absurd hc.1 (not_le.mpr h)
        · exact fun hc => absurd hc.2 (not_le.mpr h)
      simp [num_range, numerical_range_score, hne]
  · intro v lo hi
    cases v <;> cases lo <;> cases hi <;> simp [num_range]

/-- C4 witness: `num_range` evaluated at concrete inputs: inside the range,
outside the range, and with a missing bound. -/
theorem num_range_spec_witness :
    num_range (some 5) (some 3) (some 7) = some 1
    ∧ num_range (some 9) (some 3) (some 7) = some 0
    ∧ num_range (some 5) none (some 7) = none :=
  ⟨(num_range_spec.1 5 3 7).1 (by norm_num),
   (num_range_spec.1 9 3 7).2 (Or.inr (by norm_num)),
   (num_range_spec.2 (some 5) none (some 7)).mpr (Or.inr (Or.inl rfl))⟩

/-! ### Claim C5: cat_compatibility -/

lemma mem_le_foldr_max (l : List ℚ) : ∀ x ∈ l, x ≤ l.foldr max 0 := by
  induction l with
  | nil => intro x hx; cases hx
  | cons a t ih =>
    intro x hx
    rcases List.mem_cons.mp hx with rfl | hx
    · exact le_max_left _ _
    · exact le_trans (ih x hx) (le_max_right _ _)

lemma foldr_max_eq_zero_or_mem (l : List ℚ) :
    l.foldr max 0 = 0 ∨ l.foldr max 0 ∈ l := by
  induction l with
  | nil => exact Or.inl rfl
  | cons a t ih =>
    rcases max_choice a (t.foldr max 0) with h | h
    · exact Or.inr (by rw [List.foldr_cons, h]; exact List.mem_cons_self a t)
    · rcases ih with h0 | hm
      · exact Or.inl (by rw [List.foldr_cons, h, h0])
      · exact Or.inr (by rw [List.foldr_cons, h]; exact List.mem_cons_of_mem a hm)

lemma foldr_max_perm {l l' : List ℚ} (h : l.Perm l') :
    l.foldr max 0 = l'.foldr max 0 := by
  induction h with
  | nil => rfl
  | cons a _ ih => simp [ih]
  | swap a b t => simp [max_left_comm]
  | trans _ _ ih1 ih2 => exact ih1.trans ih2

/-- C5: `cat_compatibility` returns 1.0 on exact membership; otherwise it is
the maximum compatibility weight found in the table over the preferred
candidates (an upper bound of all candidate weights that is either 0 or
attained by some candidate), so it is invariant under any permutation of the
preference list; and it is 0.0 when no table entry matches. -/
theorem cat_compatibility_spec (v : String) (preferred preferred' : List String)
    (table : CompatTable) :
    (v ∈ preferred → categorical_compatibility_score v preferred table = 1)
    ∧ (v ∉ preferred → ∀ p ∈ preferred,
        (compat_weight table p v).getD 0 ≤ categorical_compatibility_score v preferred table)
    ∧ (v ∉ preferred →
        (categorical_compatibility_score v preferred table = 0
         ∨ ∃ p ∈ preferred,
            (compat_weight table p v).getD 0 = categorical_compatibility_score v preferred table))
    ∧ (preferred.Perm preferred' →
        categorical_compatibility_score v preferred table
          = categorical_compatibility_score v preferred' table)
    ∧ (v ∉ preferred → (∀ p ∈ preferred, compat_weight table p v = none) →
        categorical_compatibility_score v preferred table = 0) := by
  refine ⟨?_, ?_, ?_, ?_, ?_⟩
  · intro h
    simp [categorical_compatibility_score, h]
  · intro h p hp
    rw [categorical_compatibility_score, if_neg h]
    exact mem_le_foldr_max _ _ (List.mem_map_of_mem _ hp)
  · intro h
    rw [categorical_compatibility_score, if_neg h]
    rcases foldr_max_eq_zero_or_mem ((preferred.map (fun p => (compat_weight table p v).getD 0))) with h0 | hm
    · exact Or.inl h0
    · rcases List.mem_map.mp hm with ⟨p, hp, hpe⟩
      exact Or.inr ⟨p, hp, hpe⟩
  · intro hperm
    rw [categorical_compatibility_score, categorical_compatibility_score]
    by_cases hv : v ∈ preferred
    · rw [if_pos hv, if_pos (hperm.mem_iff.mp hv)]
    · rw [if_neg hv, if_neg (fun hc => hv (hperm.mem_iff.mpr hc))]
      exact foldr_max_perm (hperm.map _)
  · intro h hnone
    rw [categorical_compatibility_score, if_neg h]
    rcases foldr_max_eq_zero_or_mem ((preferred.map (fun p => (compat_weight table p v).getD 0))) with h0 | hm
    · exact h0
    · rcases List.mem_map.mp hm with ⟨p, hp, hpe⟩
      rw [← hpe, hnone p hp]
      rfl

/-- C5 witness: a concrete table where the farm value "silt" is not preferred
but is compatible with the preferred value "loam" at weight 1/2. -/
theorem cat_compatibility_spec_witness :
    ("silt" ∉ ["loam"]
      ∧ (compat_weight [("loam", [("silt", (1 : ℚ)/2)])] "loam" "silt").getD 0
          ≤ categorical_compatibility_score "silt" ["loam"] [("loam", [("silt", (1 : ℚ)/2)])])
    ∧ categorical_compatibility_score "loam" ["loam"] [("loam", [("silt", (1 : ℚ)/2)])] = 1 :=
  ⟨⟨by decide, (cat_compatibility_spec "silt" ["loam"] ["loam"]
      [("loam", [("silt", (1 : ℚ)/2)])]).2.1 (by decide) "loam" (by decide)⟩,
   (cat_compatibility_spec "loam" ["loam"] ["loam"]
      [("loam", [("silt", (1 : ℚ)/2)])]).1 (by decide)⟩

/-! ### Claim C1: weighted-mean aggregation -/

lemma foldl_mcda_step (farm : Farm) (rules : List Rule) :
    ∀ a b : ℚ,
      rules.foldl (mcda_step farm) (a, b)
        = (a + ((scored_pairs farm rules).map (fun p => p.1 * p.2)).sum,
           b + ((scored_pairs farm rules).map Prod.fst).sum) := by
  induction rules with
  | nil => intro a b; simp [scored_pairs]
  | cons r rs ih =>
    intro a b
    rw [List.foldl_cons]
    cases hsr : score_rule farm r with
    | none =>
      rw [show mcda_step farm (a, b) r = (a, b) by rw [mcda_step, hsr]]
      rw [ih]
      simp [scored_pairs, List.filterMap_cons, hsr]
    | some s =>
      rw [show mcda_step farm (a, b) r = (a + r.weight * s, b + r.weight) by
        rw [mcda_step, hsr]]
      rw [ih]
      simp only [scored_pairs, List.filterMap_cons, hsr, Option.map_some',
        List.map_cons, List.sum_cons, Prod.mk.injEq]
      constructor <;> ring

lemma mcda_score_of_eq (farm : Farm) (rules : List Rule) :
    mcda_score_of farm rules
      = ((scored_pairs farm rules).map (fun p => p.1 * p.2)).sum
        / ((scored_pairs farm rules).map Prod.fst).sum := by
  rw [mcda_score_of, mcda_fold, foldl_mcda_step]
  simp only [zero_add]
  by_cases h : ((scored_pairs farm rules).map Prod.fst).sum = 0
  · simp [h]
  · simp [h]

lemma scored_pairs_append_none (farm : Farm) (rules extra : List Rule)
    (h : ∀ r ∈ extra, score_rule farm r = none) :
    scored_pairs farm (rules ++ extra) = scored_pairs farm rules := by
  rw [scored_pairs, scored_pairs, List.filterMap_append]
  rw [show extra.filterMap (fun r => (score_rule farm r).map (fun s => (r.weight, s))) = [] from
    List.filterMap_eq_nil_iff.mpr (fun r hr => by rw [h r hr]; rfl)]
  exact List.append_nil _

/-- C1: for every species of the list with at least one defined feature
score, `calculate_suitability` includes that species' result in its results
list, with `mcda_score` equal to the weighted arithmetic mean
`Σ(weight·score) / Σ(weight)` taken over exactly the rules with a defined
score; and extending the species' rule list by rules that all score `None`
leaves the returned `mcda_score` unchanged. -/
theorem calculate_suitability_weighted_mean
    (farm : Farm) (species_list : List SpeciesRow) (cfg : Cfg)
    (rd rd' : List (Nat × List Rule)) (row : SpeciesRow)
    (hrow : row ∈ species_list) (extra : List Rule)
    (hsome : ∃ r ∈ rules_for rd row.species_id, (score_rule farm r).isSome = true)
    (hextra : ∀ r ∈ extra, score_rule farm r = none)
    (hext : rules_for rd' row.species_id = rules_for rd row.species_id ++ extra) :
    score_species farm row (rules_for rd row.species_id)
        ∈ (calculate_suitability farm species_list rd cfg).1
    ∧ (score_species farm row (rules_for rd row.species_id)).mcda_score
        = ((scored_pairs farm (rules_for rd row.species_id)).map (fun p => p.1 * p.2)).sum
          / ((scored_pairs farm (rules_for rd row.species_id)).map Prod.fst).sum
    ∧ score_species farm row (rules_for rd' row.species_id)
        ∈ (calculate_suitability farm species_list rd' cfg).1
    ∧ (score_species farm row (rules_for rd' row.species_id)).mcda_score
        = (score_species farm row (rules_for rd row.species_id)).mcda_score := by
  refine ⟨?_, ?_, ?_, ?_⟩
  · exact List.mem_map_of_mem _ hrow
  · exact mcda_score_of_eq farm _
  · exact List.mem_map_of_mem _ hrow
  · show mcda_score_of farm (rules_for rd' row.species_id)
      = mcda_score_of farm (rules_for rd row.species_id)
    rw [hext, mcda_score_of_eq, mcda_score_of_eq,
      scored_pairs_append_none farm _ extra hextra]

/-- C1 witness: a single species with an in-range rainfall rule (score 1) and
an extra soil rule the farm has no data for (score `None`): the weighted mean
is unchanged by the extra rule. -/
theorem calculate_suitability_weighted_mean_witness :
    (score_species [("rainfall", FarmValue.num 1200)]
        (SpeciesRow.mk 1 "A" "a" [] [])
        (rules_for [(1, [Rule.mk "rainfall" 1 "Rain" "num_range" (RuleArgs.numRangeArgs 1000 1500),
                         Rule.mk "soil" 1 "Soil" "cat_exact" (RuleArgs.catExactArgs ["loam"])])] 1)).mcda_score
      = (score_species [("rainfall", FarmValue.num 1200)]
          (SpeciesRow.mk 1 "A" "a" [] [])
          (rules_for [(1, [Rule.mk "rainfall" 1 "Rain" "num_range" (RuleArgs.numRangeArgs 1000 1500)])] 1)).mcda_score :=
  (calculate_suitability_weighted_mean
    [("rainfall", FarmValue.num 1200)]
    [SpeciesRow.mk 1 "A" "a" [] []]
    []
    [(1, [Rule.mk "rainfall" 1 "Rain" "num_range" (RuleArgs.numRangeArgs 1000 1500)])]
    [(1, [Rule.mk "rainfall" 1 "Rain" "num_range" (RuleArgs.numRangeArgs 1000 1500),
          Rule.mk "soil" 1 "Soil" "cat_exact" (RuleArgs.catExactArgs ["loam"])])]
    (SpeciesRow.mk 1 "A" "a" [] [])
    (List.mem_singleton_self _)
    [Rule.mk "soil" 1 "Soil" "cat_exact" (RuleArgs.catExactArgs ["loam"])]
    ⟨Rule.mk "rainfall" 1 "Rain" "num_range" (RuleArgs.numRangeArgs 1000 1500),
      by decide, by decide⟩
    (by decide)
    (by decide)).2.2.2

/-! ### Claim C7: rule coverage per species -/

lemma rule_for_isSome (params : ParamsDict) (row : SpeciesRow)
    (fc : String × FeatureCfg) :
    (rule_for params row.species_id row fc).isSome = row_provides params row fc := by
  rw [rule_for, Option.isSome_map', rule_args_for, row_provides]
  by_cases h1 : resolve_method params row.species_id fc.1 fc.2 = "cat_exact"
  · simp [h1, Option.isSome_map']
  · by_cases h2 : resolve_method params row.species_id fc.1 fc.2 = "cat_compatibility"
    · simp [h1, h2, Option.isSome_map']
    · by_cases h3 : resolve_method params row.species_id fc.1 fc.2 = "trapezoid"
      · cases hmin : row_num row (fc.1 ++ "_min") <;>
          cases hmax : row_num row (fc.1 ++ "_max") <;>
            simp [h1, h2, h3, hmin, hmax]
      · cases hmin : row_num row (fc.1 ++ "_min") <;>
          cases hmax : row_num row (fc.1 ++ "_max") <;>
            simp [h1, h2, h3, hmin, hmax]

lemma rule_for_feat (params : ParamsDict) (sid : Nat) (row : SpeciesRow)
    (fc : String × FeatureCfg) (r : Rule)
    (h : rule_for params sid row fc = some r) : r.feat = fc.1 := by
  rw [rule_for] at h
  cases ha : rule_args_for params sid row fc with
  | none => rw [ha] at h; cases h
  | some a =>
    rw [ha, Option.map_some'] at h
    injection h with h2
    subst h2
    rfl

lemma species_rules_feats (params : ParamsDict) (row : SpeciesRow) (cfg : Cfg) :
    (species_rules params row cfg).map (fun r => r.feat)
      = (cfg.filter (row_provides params row)).map (fun fc => fc.1) := by
  rw [species_rules]
  induction cfg with
  | nil => rfl
  | cons fc cfgs ih =>
    cases hr : rule_for params row.species_id row fc with
    | none =>
      have hp : row_provides params row fc = false := by
        rw [← rule_for_isSome params row fc, hr]
        rfl
      simp only [List.filterMap_cons, hr, List.filter_cons, hp, Bool.false_eq_true,
        if_false]
      exact ih
    | some r =>
      have hp : row_provides params row fc = true := by
        rw [← rule_for_isSome params row fc, hr]
        rfl
      simp only [List.filterMap_cons, hr, List.filter_cons, hp, if_true, List.map_cons]
      rw [rule_for_feat params row.species_id row fc r hr]
      exact congrArg _ ih

/-- C7: with structurally valid configuration, `build_rules_dict` raises no
error and emits, for every species, exactly one rule per configured feature
whose needed catalog fields the species row provides — a feature whose needed
fields are missing is skipped for that species only. -/
theorem build_rules_dict_coverage (species_list : List SpeciesRow)
    (params : ParamsDict) (cfg : Cfg)
    (hok : validate_config cfg params = Except.ok ()) :
    build_rules_dict species_list params cfg
        = Except.ok (species_list.map
            (fun row => (row.species_id, species_rules params row cfg)))
    ∧ ∀ row ∈ species_list,
        (species_rules params row cfg).map (fun r => r.feat)
          = (cfg.filter (row_provides params row)).map (fun fc => fc.1) := by
  constructor
  · rw [build_rules_dict, hok]
  · intro row _
    exact species_rules_feats params row cfg

/-- C7 witness: two configured features; the species row provides the
rainfall bounds but no soils list, so exactly the rainfall rule is emitted. -/
theorem build_rules_dict_coverage_witness :
    (species_rules []
        (SpeciesRow.mk 1 "A" "a" [("rainfall_min", 1000), ("rainfall_max", 1500)] [])
        [("rainfall", FeatureCfg.mk (some FType.numerical) "Rain" []),
         ("soil", FeatureCfg.mk (some FType.categorical) "Soil" [])]).map (fun r => r.feat)
      = (([("rainfall", FeatureCfg.mk (some FType.numerical) "Rain" []),
          ("soil", FeatureCfg.mk (some FType.categorical) "Soil" [])] : Cfg).filter
            (row_provides []
              (SpeciesRow.mk 1 "A" "a" [("rainfall_min", 1000), ("rainfall_max", 1500)] []))).map
          (fun fc => fc.1) :=
  (build_rules_dict_coverage
    [SpeciesRow.mk 1 "A" "a" [("rainfall_min", 1000), ("rainfall_max", 1500)] []]
    []
    [("rainfall", FeatureCfg.mk (some FType.numerical) "Rain" []),
     ("soil", FeatureCfg.mk (some FType.categorical) "Soil" [])]
    rfl).2
    (SpeciesRow.mk 1 "A" "a" [("rainfall_min", 1000), ("rainfall_max", 1500)] [])
    (List.mem_singleton_self _)

/-! ### Claim C6: fail fast on invalid configuration -/

/-- C6: for every configuration whose structure is invalid — a feature
missing its type metadata, or a parameter override referencing an unknown
score method — the pipeline returns a typed `ConfigError` raised at
rule-build time, and hence never a recommendation list. -/
theorem pipeline_fails_fast (farm : Farm) (species_list : List SpeciesRow)
    (params : ParamsDict) (cfg : Cfg)
    (hbad : (∃ fc ∈ cfg, fc.2.ftype = none)
      ∨ (∃ e ∈ params, ∃ f ∈ e.2, ∃ m,
          f.2.score_method = some m ∧ m ∉ known_methods)) :
    ∃ err, run_pipeline farm species_list params cfg = Except.error err := by
  have hval : ∃ err, validate_config cfg params = Except.error err := by
    cases hmt : first_missing_type cfg with
    | some f =>
      exact ⟨ConfigError.missing_type f, by rw [validate_config, hmt]⟩
    | none =>
      rcases hbad with ⟨fc, hfc, hty⟩ | ⟨e, he, f, hf, m, hsm, hm⟩
      · exfalso
        have hmt0 : (List.find? (fun fc => fc.2.ftype.isNone) cfg).map
            (fun fc => fc.1) = none := hmt
        have hfind := Option.map_eq_none'.mp hmt0
        have hnone := List.find?_eq_none.mp hfind fc hfc
        rw [hty] at hnone
        exact hnone rfl
      · cases hum : first_unknown_method params with
        | some m' =>
          exact ⟨ConfigError.unknown_method m', by rw [validate_config, hmt, hum]⟩
        | none =>
          exfalso
          have hum0 : List.findSome? (fun e =>
              e.2.findSome? (fun f =>
                match f.2.score_method with
                | some m => if m ∈ known_methods then none else some m
                | none => none)) params = none := hum
          have h1 := List.findSome?_eq_none_iff.mp hum0 e he
          have h2 := List.findSome?_eq_none_iff.mp h1 f hf
          rw [hsm] at h2
          have h3 : (if m ∈ known_methods then (none : Option String) else some m)
              = none := h2
          rw [if_neg hm] at h3
          exact Option.some_ne_none m h3
  rcases hval with ⟨err, herr⟩
  refine ⟨err, ?_⟩
  rw [run_pipeline, build_rules_dict, herr]

/-- C6 witness: a configuration whose only feature is missing its type
metadata makes the pipeline return a typed error. -/
theorem pipeline_fails_fast_witness :
    ∃ err, run_pipeline [] [] []
        [("soil", FeatureCfg.mk none "Soil" [])] = Except.error err :=
  pipeline_fails_fast [] [] [] [("soil", FeatureCfg.mk none "Soil" [])]
    (Or.inl ⟨("soil", FeatureCfg.mk none "Soil" []), List.mem_singleton_self _, rfl⟩)

/-! ### Claim C2: dense ranking -/

lemma round3_mono {a b : ℚ} (h : a ≤ b) : round3 a ≤ round3 b := by
  rw [round3, round3]
  have h1 : round (a * 1000) ≤ round (b * 1000) := by
    rw [round_eq, round_eq]
    exact Int.floor_mono (by linarith)
  have h2 : ((round (a * 1000) : ℤ) : ℚ) ≤ ((round (b * 1000) : ℤ) : ℚ) := by
    exact_mod_cast h1
  gcongr

lemma rank_walk_facts (xs : List ℚ) :
    ∀ (prev : ℚ) (r : Nat), List.Chain (fun a b => b ≤ a) prev xs →
      (∀ p ∈ rank_walk prev r xs,
          p.1 ≤ prev ∧ r ≤ p.2 ∧ (p.1 = prev ↔ p.2 = r) ∧ (p.1 < prev ↔ r < p.2))
      ∧ List.Pairwise RankRel (rank_walk prev r xs) := by
  induction xs with
  | nil =>
    intro prev r _
    exact ⟨fun p hp => absurd hp (List.not_mem_nil p), List.Pairwise.nil⟩
  | cons x xs ih =>
    intro prev r hchain
    rw [List.chain_cons] at hchain
    obtain ⟨hxprev, hchain'⟩ := hchain
    by_cases hx : x = prev
    · simp only [rank_walk, if_pos hx]
      obtain ⟨ihf, ihp⟩ := ih prev r (hx ▸ hchain')
      constructor
      · intro p hp
        rcases List.mem_cons.mp hp with rfl | hp
        · exact ⟨le_of_eq hx, le_rfl, iff_of_true hx rfl,
            iff_of_false (by rw [hx]; exact lt_irrefl prev) (lt_irrefl r)⟩
        · exact ihf p hp
      · refine List.Pairwise.cons ?_ ihp
        intro q hq
        obtain ⟨hq1, hq2, hq3, hq4⟩ := ihf q hq
        refine ⟨hx ▸ hq1, ?_, hx ▸ hq4⟩
        constructor
        · intro he
          exact (hq3.mp (he.symm.trans hx)).symm
        · intro he
          exact hx.trans (hq3.mpr he.symm).symm
    · have hxlt : x < prev := lt_of_le_of_ne hxprev hx
      simp only [rank_walk, if_neg hx]
      obtain ⟨ihf, ihp⟩ := ih x (r + 1) hchain'
      constructor
      · intro p hp
        rcases List.mem_cons.mp hp with rfl | hp
        · exact ⟨hxprev, Nat.le_succ r, iff_of_false hx (Nat.succ_ne_self r),
            iff_of_true hxlt (Nat.lt_succ_self r)⟩
        · obtain ⟨hq1, hq2, hq3, hq4⟩ := ihf p hp
          refine ⟨hq1.trans hxprev, le_trans (Nat.le_succ r) hq2, ?_, ?_⟩
          · refine iff_of_false (ne_of_lt (lt_of_le_of_lt hq1 hxlt)) ?_
            intro he
            exact absurd (he ▸ hq2) (by omega)
          · exact iff_of_true (lt_of_le_of_lt hq1 hxlt)
              (lt_of_lt_of_le (Nat.lt_succ_self r) hq2)
      · refine List.Pairwise.cons ?_ ihp
        intro q hq
        obtain ⟨hq1, hq2, hq3, hq4⟩ := ihf q hq
        exact ⟨hq1,
          ⟨fun he => (hq3.mp he.symm).symm, fun he => (hq3.mpr he.symm).symm⟩,
          hq4⟩

lemma rank_walk_chain (xs : List ℚ) :
    ∀ (prev : ℚ) (r : Nat),
      List.Chain (fun a b : Nat => b = a ∨ b = a + 1) r
        ((rank_walk prev r xs).map Prod.snd) := by
  induction xs with
  | nil => intro prev r; simp [rank_walk, List.Chain.nil]
  | cons x xs ih =>
    intro prev r
    by_cases hx : x = prev
    · simp only [rank_walk, if_pos hx, List.map_cons]
      exact List.Chain.cons (Or.inl rfl) (ih prev r)
    · simp only [rank_walk, if_neg hx, List.map_cons]
      exact List.Chain.cons (Or.inr rfl) (ih x (r + 1))

lemma stair_mem (ks : List Nat) :
    ∀ (h : Nat), List.Chain (fun a b => b = a ∨ b = a + 1) h ks →
      ∀ k ∈ ks, ∀ j, h ≤ j → j ≤ k → j ∈ h :: ks := by
  induction ks with
  | nil => intro h _ k hk; cases hk
  | cons k1 rest ih =>
    intro h hch k hk j hj1 hj2
    rw [List.chain_cons] at hch
    obtain ⟨hstep, hch'⟩ := hch
    rcases eq_or_lt_of_le hj1 with rfl | hlt
    · exact List.mem_cons_self _ _
    · rcases List.mem_cons.mp hk with he | hk'
      · have hjk : j = k1 := by omega
        rw [hjk]
        exact List.mem_cons_of_mem _ (List.mem_cons_self _ _)
      · have hk1j : k1 ≤ j := by omega
        exact List.mem_cons_of_mem _ (ih k1 hch' k hk' j hk1j hj2)

lemma assign_dense_ranks_facts (l : List ℚ)
    (hs : List.Chain' (fun a b : ℚ => b ≤ a) l) :
    List.Pairwise RankRel (assign_dense_ranks l)
    ∧ (∀ p ∈ assign_dense_ranks l, 1 ≤ p.2)
    ∧ (∀ p ∈ assign_dense_ranks l, ∀ j, 1 ≤ j → j ≤ p.2 →
        ∃ q ∈ assign_dense_ranks l, q.2 = j) := by
  cases l with
  | nil => simp [assign_dense_ranks]
  | cons x xs =>
    have hchain : List.Chain (fun a b : ℚ => b ≤ a) x xs := hs
    obtain ⟨wf, wp⟩ := rank_walk_facts xs x 1 hchain
    refine ⟨?_, ?_, ?_⟩
    · refine List.Pairwise.cons ?_ wp
      intro q hq
      obtain ⟨h1, h2, h3, h4⟩ := wf q hq
      exact ⟨h1, ⟨fun he => (h3.mp he.symm).symm, fun he => (h3.mpr he.symm).symm⟩, h4⟩
    · intro p hp
      rcases List.mem_cons.mp hp with rfl | hp
      · exact le_rfl
      · exact (wf p hp).2.1
    · intro p hp j hj1 hj2
      have hchainr := rank_walk_chain xs x 1
      rcases List.mem_cons.mp hp with rfl | hp
      · have he : j = 1 := le_antisymm hj2 hj1
        exact ⟨(x, 1), List.mem_cons_self _ _, he.symm⟩
      · have hmem : p.2 ∈ (rank_walk x 1 xs).map Prod.snd := List.mem_map_of_mem _ hp
        have hj := stair_mem _ 1 hchainr p.2 hmem j hj1 hj2
        rcases List.mem_cons.mp hj with rfl | hj'
        · exact ⟨(x, 1), List.mem_cons_self _ _, rfl⟩
        · rcases List.mem_map.mp hj' with ⟨q, hq, hq2⟩
          exact ⟨q, List.mem_cons_of_mem _ hq, hq2⟩

lemma rank_walk_map_fst (xs : List ℚ) :
    ∀ prev r, (rank_walk prev r xs).map Prod.fst = xs := by
  induction xs with
  | nil => intro prev r; rfl
  | cons x xs ih =>
    intro prev r
    by_cases hx : x = prev <;> simp [rank_walk, hx, ih]

lemma assign_dense_ranks_map_fst (l : List ℚ) :
    (assign_dense_ranks l).map Prod.fst = l := by
  cases l <;> simp [assign_dense_ranks, rank_walk_map_fst]

lemma assign_dense_ranks_length (l : List ℚ) :
    (assign_dense_ranks l).length = l.length := by
  have := congrArg List.length (assign_dense_ranks_map_fst l)
  simpa using this

lemma map_proj_zip {A B : Type} (l1 : List A) (l2 : List B)
    (hlen : l2.length ≤ l1.length) (f : A × B → B) (hf : ∀ p, f p = p.2) :
    (l1.zip l2).map f = l2 := by
  have hfe : f = Prod.snd := funext hf
  rw [hfe]
  exact List.map_snd_zip l1 l2 hlen

lemma recommendations_proj (results : List SuitabilityResult) :
    (build_species_recommendations results).map
        (fun e => (e.score_mcda, e.rank_overall))
      = assign_dense_ranks
          ((sort_desc results).map (fun r => round3 r.mcda_score)) := by
  rw [build_species_recommendations, rank_and_render, List.map_map]
  have hlen : (assign_dense_ranks
      ((sort_desc results).map (fun r => round3 r.mcda_score))).length
      ≤ (sort_desc results).length := by
    rw [assign_dense_ranks_length, List.length_map]
  exact map_proj_zip _ _ hlen _ (fun p => rfl)

lemma sorted_rounded (results : List SuitabilityResult) :
    List.Chain' (fun a b : ℚ => b ≤ a)
      ((sort_desc results).map (fun r => round3 r.mcda_score)) := by
  have hs : List.Sorted res_ge (sort_desc results) :=
    List.sorted_insertionSort res_ge results
  have hp : List.Pairwise
      (fun a b : SuitabilityResult => round3 b.mcda_score ≤ round3 a.mcda_score)
      (sort_desc results) := hs.imp (fun hab => round3_mono hab)
  exact (List.pairwise_map.mpr hp).chain'

lemma rankRel_S {p q : ℚ × Nat} (h : RankRel p q) :
    (p.1 = q.1 → p.2 = q.2) ∧ (p.2 < q.2 ↔ q.1 < p.1) :=
  ⟨fun he => h.2.1.mp he, h.2.2.symm⟩

lemma rankRel_S_rev {p q : ℚ × Nat} (h : RankRel p q) :
    (q.1 = p.1 → q.2 = p.2) ∧ (q.2 < p.2 ↔ p.1 < q.1) := by
  obtain ⟨hle, hiff, hlt⟩ := h
  constructor
  · intro he
    exact (hiff.mp he.symm).symm
  · constructor
    · intro hlt2
      exfalso
      rcases eq_or_lt_of_le hle with he | hl
      · rw [hiff.mp he.symm] at hlt2
        exact lt_irrefl _ hlt2
      · exact absurd hlt2 (not_lt.mpr (le_of_lt (hlt.mp hl)))
    · intro h2
      exact absurd h2 (not_lt.mpr hle)

lemma assign_pairs_S (L : List ℚ) (hs : List.Chain' (fun a b : ℚ => b ≤ a) L) :
    ∀ p ∈ assign_dense_ranks L, ∀ q ∈ assign_dense_ranks L,
      (p.1 = q.1 → p.2 = q.2) ∧ (p.2 < q.2 ↔ q.1 < p.1) := by
  intro p hp q hq
  by_cases hpq : p = q
  · subst hpq
    exact ⟨fun _ => rfl, iff_of_false (lt_irrefl _) (lt_irrefl _)⟩
  · have hpw := (assign_dense_ranks_facts L hs).1
    have hpw2 := hpw.imp (fun h => And.intro (rankRel_S h) (rankRel_S_rev h))
    exact (hpw2.forall (fun _ _ h => ⟨h.2, h.1⟩) hp hq hpq).1

/-- C2: `build_species_recommendations` sorts descending by score and assigns
1-based dense ranks on the rounded scores: two entries with equal rounded
scores share `rank_overall`, ranks order-reverse the rounded scores
one-to-one, every rank down to 1 is attained (no gaps), and the multiset of
reported rounded scores is exactly the input's rounded scores. -/
theorem build_species_recommendations_dense_ranking
    (results : List SuitabilityResult) :
    (∀ e1 ∈ build_species_recommendations results,
      ∀ e2 ∈ build_species_recommendations results,
        (e1.score_mcda = e2.score_mcda → e1.rank_overall = e2.rank_overall)
        ∧ (e1.rank_overall < e2.rank_overall ↔ e2.score_mcda < e1.score_mcda))
    ∧ List.Pairwise (fun e1 e2 => e2.score_mcda ≤ e1.score_mcda)
        (build_species_recommendations results)
    ∧ (∀ e ∈ build_species_recommendations results, 1 ≤ e.rank_overall)
    ∧ (∀ e ∈ build_species_recommendations results,
        ∀ j, 1 ≤ j → j ≤ e.rank_overall →
          ∃ e2 ∈ build_species_recommendations results, e2.rank_overall = j)
    ∧ ((build_species_recommendations results).map (fun e => e.score_mcda)).Perm
        (results.map (fun r => round3 r.mcda_score)) := by
  have hs := sorted_rounded results
  have hproj := recommendations_proj results
  have hfacts := assign_dense_ranks_facts _ hs
  refine ⟨?_, ?_, ?_, ?_, ?_⟩
  · intro e1 he1 e2 he2
    have hp1 : (e1.score_mcda, e1.rank_overall)
        ∈ assign_dense_ranks ((sort_desc results).map (fun r => round3 r.mcda_score)) := by
      rw [← hproj]
      exact List.mem_map_of_mem _ he1
    have hp2 : (e2.score_mcda, e2.rank_overall)
        ∈ assign_dense_ranks ((sort_desc results).map (fun r => round3 r.mcda_score)) := by
      rw [← hproj]
      exact List.mem_map_of_mem _ he2
    exact assign_pairs_S _ hs _ hp1 _ hp2
  · have hpw := hfacts.1
    rw [← hproj] at hpw
    exact (List.pairwise_map.mp hpw).imp (fun h => h.1)
  · intro e he
    have hp : (e.score_mcda, e.rank_overall)
        ∈ assign_dense_ranks ((sort_desc results).map (fun r => round3 r.mcda_score)) := by
      rw [← hproj]
      exact List.mem_map_of_mem _ he
    exact hfacts.2.1 _ hp
  · intro e he j hj1 hj2
    have hp : (e.score_mcda, e.rank_overall)
        ∈ assign_dense_ranks ((sort_desc results).map (fun r => round3 r.mcda_score)) := by
      rw [← hproj]
      exact List.mem_map_of_mem _ he
    obtain ⟨q, hq, hq2⟩ := hfacts.2.2 _ hp j hj1 hj2
    rw [← hproj] at hq
    obtain ⟨e2, he2, he2q⟩ := List.mem_map.mp hq
    refine ⟨e2, he2, ?_⟩
    rw [show e2.rank_overall = ((e2.score_mcda, e2.rank_overall)).2 from rfl, he2q, hq2]
  · have h1 : (build_species_recommendations results).map (fun e => e.score_mcda)
        = (sort_desc results).map (fun r => round3 r.mcda_score) := by
      have h2 := congrArg (List.map Prod.fst) hproj
      rw [List.map_map, assign_dense_ranks_map_fst] at h2
      exact h2
    rw [h1]
    exact (List.perm_insertionSort res_ge results).map _

/-- C2 witness: the dense-ranking theorem applied to a concrete two-species
results list. -/
theorem build_species_recommendations_dense_ranking_witness :
    ((build_species_recommendations
        [SuitabilityResult.mk 1 "A" "a" 1 [], SuitabilityResult.mk 2 "B" "b" 0 []]).map
          (fun e => e.score_mcda)).Perm
      ([SuitabilityResult.mk 1 "A" "a" 1 [], SuitabilityResult.mk 2 "B" "b" 0 []].map
          (fun r => round3 r.mcda_score)) :=
  (build_species_recommendations_dense_ranking
    [SuitabilityResult.mk 1 "A" "a" 1 [], SuitabilityResult.mk 2 "B" "b" 0 []]).2.2.2.2

/-! ### Claim C8: slope filtering -/

lemma mask_select_map {α : Type} (l : List α) (g : α → Bool) :
    mask_select l (l.map g) = l.filter g := by
  induction l with
  | nil => rfl
  | cons x xs ih =>
    by_cases h : g x <;> simp [mask_select, List.filter_cons, h, ih]

/-- C8: with a CRS on both the rotated grid and the slope raster,
`apply_slope_rules` writes exactly those planting points (reprojected when the
two CRS differ) whose sampled slope is at most `MAX_SLOPE = 15.0`, in their
original order (the written list is the slope-filtered point list, a sublist
of the point list). -/
theorem apply_slope_rules_spec {α : Type} (inp : SlopeInput α)
    (pcrs scrs : String) (pts : List α)
    (hp : inp.points_crs = some pcrs) (hs : inp.slope_crs = some scrs)
    (hpts : pts = if pcrs = scrs then inp.points else inp.points.map inp.reproject) :
    apply_slope_rules inp
        = Except.ok ((none : Option ℕ),
            pts.filter (fun x => decide (inp.sample x ≤ MAX_SLOPE)))
    ∧ List.Sublist (pts.filter (fun x => decide (inp.sample x ≤ MAX_SLOPE))) pts := by
  constructor
  · simp only [apply_slope_rules, hp, hs]
    rw [← hpts, List.map_map]
    exact congrArg Except.ok (congrArg (Prod.mk none) (mask_select_map pts _))
  · exact List.filter_sublist pts

/-- C8 witness: two points sampled at slopes 10 and 20; only the first
survives the 15.0 threshold. -/
theorem apply_slope_rules_spec_witness :
    apply_slope_rules
        (SlopeInput.mk [1, 2] (some "EPSG:4326") (some "EPSG:4326") id
          (fun x : ℕ => if x = 1 then (10 : ℚ) else 20))
      = Except.ok ((none : Option ℕ),
          ([1, 2].filter (fun x : ℕ =>
            decide ((if x = 1 then (10 : ℚ) else 20) ≤ MAX_SLOPE)))) :=
  (apply_slope_rules_spec
    (SlopeInput.mk [1, 2] (some "EPSG:4326") (some "EPSG:4326") id
      (fun x : ℕ => if x = 1 then (10 : ℚ) else 20))
    "EPSG:4326" "EPSG:4326" [1, 2] rfl rfl rfl).1

/-! ### Claim C9: sapling count is always None -/

lemma apply_slope_rules_fst {α : Type} (inp : SlopeInput α)
    (r : Option ℕ × List α) (h : apply_slope_rules inp = Except.ok r) :
    r.1 = none := by
  cases hpc : inp.points_crs with
  | none =>
    simp only [apply_slope_rules, hpc] at h
    exact Except.noConfusion h
  | some pcrs =>
    cases hsc : inp.slope_crs with
    | none =>
      simp only [apply_slope_rules, hpc, hsc] at h
      exact Except.noConfusion h
    | some scrs =>
      simp only [apply_slope_rules, hpc, hsc] at h
      injection h with h2
      rw [← h2]

/-- C9: every call of `sapling_estimation` that completes without raising
returns a plan whose `sapling_count` entry is `None`, because
`apply_slope_rules` ends without a `return` statement and
`sapling_estimation` passes its result through unchanged. -/
theorem sapling_estimation_count_none {σ α : Type} (env : GisEnv σ α) (fs0 : σ)
    (DEM_path farm_boundary_path : String) (farm_lon farm_lat spacing_m : ℚ)
    (plan : SaplingPlan)
    (h : sapling_estimation env fs0 DEM_path farm_boundary_path
          farm_lon farm_lat spacing_m = Except.ok plan) :
    plan.sapling_count = none := by
  simp only [sapling_estimation] at h
  split at h
  · exact Except.noConfusion h
  · split at h
    · exact Except.noConfusion h
    · split at h
      · exact Except.noConfusion h
      · rename_i r heq
        injection h with h2
        rw [← h2]
        exact apply_slope_rules_fst _ r heq

/-- C9 witness: a concrete environment in which every validation passes and
the slope data is well-formed; the returned plan has `sapling_count = none`. -/
theorem sapling_estimation_count_none_witness :
    (SaplingPlan.mk none 0).sapling_count = none :=
  sapling_estimation_count_none
    (GisEnv.mk (fun _ _ _ _ _ _ => ()) (fun _ _ => true) (fun _ _ _ _ _ => ())
      (fun _ _ _ _ _ => (0, ())) (fun _ _ _ => true)
      (fun _ _ _ => SlopeInput.mk ([] : List ℕ) (some "EPSG:4326")
        (some "EPSG:4326") id (fun _ => 0)))
    () "other_DEM.tif" "other_boundaries.gpkg" 0 0 5 (SaplingPlan.mk none 0) rfl

/-! ### Claim C10: the path arguments are ignored -/

/-- C10: two calls of `sapling_estimation` that differ only in `DEM_path` and
`farm_boundary_path` behave identically — the body never consults those
arguments, reading the hard-coded `"DEM.tif"` / `"farm_boundaries.gpkg"`
instead, so any call equals the call made with the hard-coded names. -/
theorem sapling_estimation_ignores_paths {σ α : Type} (env : GisEnv σ α)
    (fs0 : σ) (p1 b1 p2 b2 : String) (farm_lon farm_lat spacing_m : ℚ) :
    sapling_estimation env fs0 p1 b1 farm_lon farm_lat spacing_m
        = sapling_estimation env fs0 p2 b2 farm_lon farm_lat spacing_m
    ∧ sapling_estimation env fs0 p1 b1 farm_lon farm_lat spacing_m
        = sapling_estimation env fs0 "DEM.tif" "farm_boundaries.gpkg"
            farm_lon farm_lat spacing_m :=
  ⟨rfl, rfl⟩

end PlantingOpt
